import Mathlib

/-!
Shallow embedding of the invite-based registration and role-authorization
flow of the tk-hub repository: the invites table and its security-definer
validation function, the handle_new_user trigger, the send-invite edge
function, the Register page flow, and the Admin page role and deletion
permissions.
-/

namespace TkHub

/-- The app_role enum of the database (user_roles.role). -/
inductive AppRole where
  | user
  | admin
  | tk_master
deriving DecidableEq, Repr, Fintype

/-- The user_role enum of the database (profiles.role): the denormalized
cache only distinguishes admin from user. -/
inductive UserRole where
  | user
  | admin
deriving DecidableEq, Repr, Fintype

/-- A row of public.invites. Timestamps are epoch milliseconds. The id and
token columns are UUID with defaults; token carries a UNIQUE constraint,
and status is constrained to pending, accepted or expired. -/
structure Invite where
  id : String
  email : String
  invited_by : String
  token : String
  status : String
  created_at : Int
  expires_at : Int
deriving DecidableEq, Repr

/-- A row of public.user_roles (the id and created_at columns are defaults
never read by the modelled operations and are omitted). -/
structure UserRoleRow where
  user_id : String
  role : AppRole
deriving DecidableEq, Repr

/-- A row of public.profiles, restricted to the columns the modelled
operations read or write. -/
structure ProfileRow where
  id : String
  email : String
  full_name : String
  role : UserRole
deriving DecidableEq, Repr

/-- The database state touched by the invite and role flows: auth.users
is modelled by the list of registered account emails. -/
structure DB where
  accounts : List String
  invites : List Invite
  user_roles : List UserRoleRow
  profiles : List ProfileRow
deriving DecidableEq, Repr

/-- One row of the table returned by public.validate_invite_token. -/
structure ValidationRow where
  is_valid : Bool
  email : Option String
deriving DecidableEq, Repr

/-- The WHERE clause of validate_invite_token: token matches, status is
pending, and expires_at is strictly later than NOW(). -/
def inviteMatches (p_token : String) (now : Int) (i : Invite) : Bool :=
  i.token == p_token && i.status == "pending" && now < i.expires_at

/-- public.validate_invite_token (security definer, migration
20251229194412): RETURN QUERY selects (TRUE, email) for every invite row
matching the WHERE clause; IF NOT FOUND it returns the single row
(FALSE, NULL). -/
def validate_invite_token (invites : List Invite) (p_token : String) (now : Int) :
    List ValidationRow :=
  let rows := (invites.filter (inviteMatches p_token now)).map
    (fun i => ⟨true, some i.email⟩)
  if rows.isEmpty then [⟨false, none⟩] else rows

/-- The trigger function public.handle_new_user (final version, migration
20251229194412), fired on insert into auth.users: inserts a profile,
seeds the default user role, and flips every pending invite whose email
equals the new account email to accepted. -/
def handle_new_user (db : DB) (userId userEmail userFullName : String) : DB :=
  { db with
    profiles := db.profiles ++ [⟨userId, userEmail, userFullName, UserRole.user⟩]
    user_roles := db.user_roles ++ [⟨userId, AppRole.user⟩]
    invites := db.invites.map (fun i =>
      if i.email == userEmail && i.status == "pending" then
        { i with status := "accepted" }
      else i) }

/-- The registration link derived from a token, standing for the string
siteUrl/register?token=TOKEN&email=ENCODEDEMAIL built by the send-invite
edge function and the Admin page. -/
structure InviteLink where
  siteUrl : String
  token : String
  email : String
deriving DecidableEq, Repr

/-- Outcome of the send-invite edge function (supabase/functions), by the
HTTP responses it can produce. Configuration and transport failures
(missing SITE_URL, insert error, link dispatch warning) are outside the
modelled state. -/
inductive IssueResult where
  | emailRequired
  | alreadyRegistered
  | duplicateInvite (link : InviteLink)
  | created (token : String) (link : InviteLink)
deriving DecidableEq, Repr

/-- Milliseconds in a day, for the 7-day expiry window. -/
def msPerDay : Int := 86400000

/-- The duplicate-invite lookup of the send-invite function: rows of
invites with matching email and status pending. The function reads the
result with .single(), which yields a row only when exactly one matched. -/
def pendingInvitesFor (invites : List Invite) (email : String) : List Invite :=
  invites.filter (fun i => i.email == email && i.status == "pending")

/-- The send-invite edge function body: reject a missing email; reject an
email that already resolves to an auth account; reject (returning the
existing derived link) when the pending-invite lookup via .single() finds
exactly one row; otherwise insert a new invite with a fresh random token,
status pending and expiry now plus 7 days, and answer with its link. The
fresh id and token produced by gen_random_uuid and crypto.randomUUID are
passed in as parameters. -/
def sendInvite (db : DB) (email invitedBy : String) (siteUrl : String)
    (freshId freshToken : String) (now : Int) : IssueResult × DB :=
  if email == "" then (.emailRequired, db)
  else if db.accounts.contains email then (.alreadyRegistered, db)
  else
    match pendingInvitesFor db.invites email with
    | [existing] =>
        (.duplicateInvite ⟨siteUrl, existing.token, email⟩, db)
    | _ =>
        let newInvite : Invite :=
          { id := freshId, email := email, invited_by := invitedBy,
            token := freshToken, status := "pending",
            created_at := now, expires_at := now + 7 * msPerDay }
        (.created freshToken ⟨siteUrl, freshToken, email⟩,
          { db with invites := db.invites ++ [newInvite] })

/-- The special characters accepted by the fifth password rule of the
Register page (the regex character class in passwordRequirements). -/
def specialChars : List Char :=
  "!@#$%^&*()_+-=[]\x7b\x7d;\x27:\"\\|,.<>/?~\x60".data

/-- Password rule 2 of the Register page: contains an ASCII lowercase
letter. -/
def hasLower (p : String) : Bool :=
  p.data.any (fun c => 'a' ≤ c && c ≤ 'z')

/-- Password rule 3 of the Register page: contains an ASCII uppercase
letter. -/
def hasUpper (p : String) : Bool :=
  p.data.any (fun c => 'A' ≤ c && c ≤ 'Z')

/-- Password rule 4 of the Register page: contains a digit. -/
def hasDigit (p : String) : Bool :=
  p.data.any (fun c => '0' ≤ c && c ≤ '9')

/-- Password rule 5 of the Register page: contains a special character. -/
def hasSpecial (p : String) : Bool :=
  p.data.any (fun c => specialChars.contains c)

/-- isPasswordValid of the Register page: all five password requirements
hold (length at least 8, lowercase, uppercase, digit, special). -/
def isPasswordValid (p : String) : Bool :=
  decide (8 ≤ p.length) && hasLower p && hasUpper p && hasDigit p &&
    hasSpecial p

/-- The failure outcomes of the Register page flow, by the toast or blocked
screen each produces. -/
inductive RegistrationError where
  | inviteRequired
  | invalidOrExpiredInvite
  | passwordMismatch
  | weakPassword
deriving DecidableEq, Repr

/-- The supabase.auth.signUp call issued by the Register page on the happy
path: its email is the email state of the page at submit time, which the
valid branch of validateInvite overwrote with the validator result. -/
structure SignUpCall where
  email : Option String
  password : String
  full_name : String
  phone : String
deriving DecidableEq, Repr

/-- The Register page flow of the current variant: validateInvite (missing
token fails at once; otherwise the validate_invite_token RPC is consulted
and its first row decides) followed by handleSubmit (password mismatch,
then the five password rules, checked before supabase.auth.signUp is
contacted). On success it returns the signUp call that reaches the
account backend; the email query parameter only seeds the email state and
is overwritten by the validator email on the valid path. -/
def registerFlow (db : DB) (tokenParam : Option String) (emailParam : String)
    (fullName phone password confirmPassword : String) (now : Int) :
    Except RegistrationError SignUpCall :=
  match tokenParam with
  | none => .error .inviteRequired
  | some tok =>
    match (validate_invite_token db.invites tok now).head? with
    | none => .error .invalidOrExpiredInvite
    | some result =>
      if !result.is_valid then .error .invalidOrExpiredInvite
      else if password != confirmPassword then .error .passwordMismatch
      else if !(isPasswordValid password) then .error .weakPassword
      else .ok ⟨result.email, password, fullName, phone⟩

/-- The client-side mark-invite-as-accepted update of handleSubmit: set
status accepted on every invites row whose id equals the given one. -/
def markInviteAccepted (invites : List Invite) (inviteId : String) :
    List Invite :=
  invites.map (fun i =>
    if i.id == inviteId then { i with status := "accepted" } else i)

/-- The state change of one successful registration in the current Register
variant: signUp inserts the auth user (firing handle_new_user), then
handleSubmit runs the client-side accepted update against the invite
object built by validateInvite, whose id field is hardcoded to the empty
string. -/
def completeRegistration (db : DB) (userId userEmail userFullName : String) :
    DB :=
  let db1 := handle_new_user
    { db with accounts := db.accounts ++ [userEmail] } userId userEmail
    userFullName
  { db1 with invites := markInviteAccepted db1.invites "" }

/-- isTkMaster of the Admin page: appRoles.includes tk_master. -/
def isTkMasterOf (actorRoles : List AppRole) : Bool :=
  actorRoles.contains AppRole.tk_master

/-- canEditRole of the Admin page users table: a TK master may edit any row
but their own; anyone else may edit only a row whose app_role is user and
which is not their own. -/
def canEditRole (actorRoles : List AppRole) (targetRole : AppRole)
    (isOwnProfile : Bool) : Bool :=
  if isTkMasterOf actorRoles then !isOwnProfile
  else targetRole == AppRole.user && !isOwnProfile

/-- The guard at the top of userDelete.onDelete in the Admin page: it
throws unless the actor is a TK master. -/
def deleteGuardAllows (isTkMaster : Bool) : Bool := isTkMaster

/-- Availability of the delete button in the Admin page users table: the
action column renders only for TK masters and the button is disabled on
the actor row. -/
def deleteButtonEnabled (isTkMaster isOwnProfile : Bool) : Bool :=
  isTkMaster && !isOwnProfile

/-- A user deletion goes through when the button is reachable and the
onDelete guard passes. -/
def canDeleteUser (isTkMaster isOwnProfile : Bool) : Bool :=
  deleteButtonEnabled isTkMaster isOwnProfile && deleteGuardAllows isTkMaster

/-- updateUserRole of the Admin page: read the user_roles row for the user
with .single(); on exactly one row, update the role of every row of that
user, otherwise insert a fresh row; then refresh the denormalized
profiles.role cache, collapsing tk_master to admin. -/
def updateUserRole (db : DB) (userId : String) (newRole : AppRole) : DB :=
  let existing := db.user_roles.filter (fun r => r.user_id == userId)
  let user_roles' :=
    match existing with
    | [_] => db.user_roles.map (fun r =>
        if r.user_id == userId then { r with role := newRole } else r)
    | _ => db.user_roles ++ [⟨userId, newRole⟩]
  let profileRole :=
    if newRole == AppRole.user then UserRole.user else UserRole.admin
  { db with
    user_roles := user_roles'
    profiles := db.profiles.map (fun p =>
      if p.id == userId then { p with role := profileRole } else p) }

/-! ## Helper lemmas -/

/-- The validity predicate of validate_invite_token, spelled out. -/
theorem inviteMatches_iff (p_token : String) (now : Int) (i : Invite) :
    inviteMatches p_token now i = true ↔
      i.token = p_token ∧ i.status = "pending" ∧ now < i.expires_at := by
  simp [inviteMatches, and_assoc]

/-- When no invite row satisfies the validity predicate, the function
answers with the single (false, null) row. -/
theorem validate_invite_token_of_no_match (invites : List Invite)
    (p_token : String) (now : Int)
    (h : ∀ i ∈ invites, ¬ inviteMatches p_token now i) :
    validate_invite_token invites p_token now = [⟨false, none⟩] := by
  unfold validate_invite_token
  rw [List.filter_eq_nil_iff.mpr h]
  rfl

/-! ## Claims -/

/-- C1: validate_invite_token returns is_valid true together with the email
of a matching invite exactly when an invite row exists with that token,
status pending, and expires_at strictly later than now; for every token
failing any conjunct it returns the single undifferentiated row
(false, null). -/
theorem validate_invite_token_contract (invites : List Invite)
    (p_token : String) (now : Int) :
    ((∃ i ∈ invites,
        i.token = p_token ∧ i.status = "pending" ∧ now < i.expires_at) →
      ∃ i ∈ invites,
        i.token = p_token ∧ i.status = "pending" ∧ now < i.expires_at ∧
        (validate_invite_token invites p_token now).head?
          = some ⟨true, some i.email⟩)
    ∧ ((¬ ∃ i ∈ invites,
        i.token = p_token ∧ i.status = "pending" ∧ now < i.expires_at) →
      validate_invite_token invites p_token now = [⟨false, none⟩]) := by
  constructor
  · rintro ⟨i, hi, hprops⟩
    have hmem : i ∈ invites.filter (inviteMatches p_token now) :=
      List.mem_filter.mpr ⟨hi, (inviteMatches_iff p_token now i).mpr hprops⟩
    cases hl : invites.filter (inviteMatches p_token now) with
    | nil => rw [hl] at hmem; cases hmem
    | cons a as =>
      have ha : a ∈ invites.filter (inviteMatches p_token now) := by
        rw [hl]; exact List.mem_cons_self a as
      have ⟨hain, hamatch⟩ := List.mem_filter.mp ha
      have haprops := (inviteMatches_iff p_token now a).mp hamatch
      refine ⟨a, hain, haprops.1, haprops.2.1, haprops.2.2, ?_⟩
      unfold validate_invite_token
      rw [hl]
      rfl
  · intro h
    refine validate_invite_token_of_no_match invites p_token now ?_
    intro i hi hmatch
    exact h ⟨i, hi, (inviteMatches_iff p_token now i).mp hmatch⟩

/-- Witness for C1 at a concrete invite set: a token whose only row is
expired yields the undifferentiated failure row. -/
theorem validate_invite_token_contract_witness :
    validate_invite_token [⟨"i1", "bob@x", "a1", "t1", "pending", 0, 10⟩]
      "t1" 20 = [⟨false, none⟩] :=
  (validate_invite_token_contract
      [⟨"i1", "bob@x", "a1", "t1", "pending", 0, 10⟩] "t1" 20).2 (by decide)

/-- C2: the authorization matrix of the Admin page. A TK master (owner) may
change the role of or delete any target except themselves; a non-owner
actor (an admin on this page) may change the role only of a target whose
role is user and who is not themselves, and may never delete; no actor may
change their own role. -/
theorem authorization_matrix (actorRoles : List AppRole)
    (targetRole : AppRole) (own : Bool) :
    (AppRole.tk_master ∈ actorRoles →
      canEditRole actorRoles targetRole own = !own)
    ∧ (AppRole.tk_master ∈ actorRoles →
      canDeleteUser (isTkMasterOf actorRoles) own = !own)
    ∧ (AppRole.tk_master ∉ actorRoles →
      canEditRole actorRoles targetRole own
        = (targetRole == AppRole.user && !own))
    ∧ (AppRole.tk_master ∉ actorRoles →
      canDeleteUser (isTkMasterOf actorRoles) own = false)
    ∧ canEditRole actorRoles targetRole true = false := by
  have hiff : isTkMasterOf actorRoles = true ↔ AppRole.tk_master ∈ actorRoles := by
    simp [isTkMasterOf, List.contains]
  refine ⟨?_, ?_, ?_, ?_, ?_⟩
  · intro h
    simp [canEditRole, hiff.mpr h]
  · intro h
    simp [canDeleteUser, deleteButtonEnabled, deleteGuardAllows, hiff.mpr h]
  · intro h
    have : isTkMasterOf actorRoles = false := by
      cases htk : isTkMasterOf actorRoles
      · rfl
      · exact absurd (hiff.mp htk) h
    simp [canEditRole, this]
  · intro h
    have : isTkMasterOf actorRoles = false := by
      cases htk : isTkMasterOf actorRoles
      · rfl
      · exact absurd (hiff.mp htk) h
    simp [canDeleteUser, deleteButtonEnabled, deleteGuardAllows, this]
  · cases htk : isTkMasterOf actorRoles <;> simp [canEditRole, htk]

/-- Witness for C2: an owner may change an admin role of another user, an
admin may not change another admin. -/
theorem authorization_matrix_witness :
    canEditRole [AppRole.tk_master] AppRole.admin false = true
    ∧ canEditRole [AppRole.admin] AppRole.admin false = false :=
  ⟨(authorization_matrix [AppRole.tk_master] AppRole.admin false).1
      (by decide),
   (authorization_matrix [AppRole.admin] AppRole.admin false).2.2.1
      (by decide)⟩

/-- C5: the Registration Gate fails in order before touching the account
backend: with no token it fails at once with the invite-required outcome;
with a token the validator rejects it fails with the invalid-invite
outcome before any account creation; with matching passwords violating
the five complexity rules it fails with the weak-password outcome; and no
weak password ever reaches the signUp backend. -/
theorem registration_gate_order (db : DB)
    (tok emailParam fullName phone pw cpw : String) (now : Int) :
    (registerFlow db none emailParam fullName phone pw cpw now
      = .error .inviteRequired)
    ∧ (∀ r, (validate_invite_token db.invites tok now).head? = some r →
        r.is_valid = false →
        registerFlow db (some tok) emailParam fullName phone pw cpw now
          = .error .invalidOrExpiredInvite)
    ∧ (∀ r, (validate_invite_token db.invites tok now).head? = some r →
        r.is_valid = true → pw = cpw → isPasswordValid pw = false →
        registerFlow db (some tok) emailParam fullName phone pw cpw now
          = .error .weakPassword)
    ∧ (isPasswordValid pw = false →
        ∀ t c, registerFlow db t emailParam fullName phone pw cpw now
          ≠ .ok c) := by
  refine ⟨rfl, ?_, ?_, ?_⟩
  · intro r hr hv
    simp [registerFlow, hr, hv]
  · intro r hr hv hpw hweak
    subst hpw
    simp [registerFlow, hr, hv, hweak]
  · intro hweak t c
    cases t with
    | none => simp [registerFlow]
    | some tk =>
      cases hr : (validate_invite_token db.invites tk now).head? with
      | none => simp [registerFlow, hr]
      | some r =>
        by_cases hv : r.is_valid
        · by_cases hpw : pw = cpw
          · subst hpw
            simp [registerFlow, hr, hv, hweak]
          · simp [registerFlow, hr, hv, hpw]
        · simp [registerFlow, hr, hv]

/-- Witness for C5 at a concrete state: an eight-character password with no
special character is rejected as weak while the invite is valid. -/
theorem registration_gate_order_witness :
    registerFlow ⟨[], [⟨"i1", "bob@x", "a1", "t1", "pending", 0, 10⟩], [], []⟩
      (some "t1") "bob@x" "Bob" "99" "Abcdefg1" "Abcdefg1" 5
      = .error .weakPassword :=
  (registration_gate_order
      ⟨[], [⟨"i1", "bob@x", "a1", "t1", "pending", 0, 10⟩], [], []⟩
      "t1" "bob@x" "Bob" "99" "Abcdefg1" "Abcdefg1" 5).2.2.1
    ⟨true, some "bob@x"⟩ (by decide) rfl rfl (by decide)

/-- C7: the account created by registration is bound to the server-resolved
invite email, not to the email query parameter: the flow result does not
depend on the email parameter at all, and every signUp call that reaches
the backend carries exactly the email of the validator result. -/
theorem signup_email_from_validator (db : DB)
    (tok e1 e2 fullName phone pw cpw : String) (now : Int) :
    registerFlow db (some tok) e1 fullName phone pw cpw now
      = registerFlow db (some tok) e2 fullName phone pw cpw now
    ∧ (∀ c, registerFlow db (some tok) e1 fullName phone pw cpw now = .ok c →
        ∃ r, (validate_invite_token db.invites tok now).head? = some r ∧
          r.is_valid = true ∧ c.email = r.email) := by
  constructor
  · rfl
  · intro c hc
    cases hr : (validate_invite_token db.invites tok now).head? with
    | none => simp [registerFlow, hr] at hc
    | some r =>
      by_cases hv : r.is_valid
      · by_cases hpw : pw = cpw
        · by_cases hstrong : isPasswordValid pw
          · subst hpw
            simp [registerFlow, hr, hv, hstrong] at hc
            exact ⟨r, rfl, hv, by rw [← hc]⟩
          · subst hpw
            simp [registerFlow, hr, hv, hstrong] at hc
        · simp [registerFlow, hr, hv, hpw] at hc
      · simp [registerFlow, hr, hv] at hc

/-- Witness for C7: two runs with different email parameters produce the
identical signUp call, bound to the invite email. -/
theorem signup_email_from_validator_witness :
    ∃ r, (validate_invite_token
        [⟨"i1", "bob@x", "a1", "t1", "pending", 0, 10⟩] "t1" 5).head?
          = some r ∧
      r.is_valid = true ∧
      (SignUpCall.mk (some "bob@x") "Abcdef1!" "Bob" "99").email = r.email :=
  (signup_email_from_validator
      ⟨[], [⟨"i1", "bob@x", "a1", "t1", "pending", 0, 10⟩], [], []⟩
      "t1" "evil@x" "other@x" "Bob" "99" "Abcdef1!" "Abcdef1!" 5).2
    ⟨some "bob@x", "Abcdef1!", "Bob", "99"⟩ rfl

/-- C3: an invite is single-use. When every invite row carrying the
presented token is a pending row for the registering email, a successful
registration flips it to accepted, and afterwards the validator answers
(false, null) for that token at every point in time, so a second
registration attempt with the same token fails with the invalid-invite
outcome. -/
theorem invite_single_use (db : DB) (t userId userEmail userFullName : String)
    (hex : ∃ i ∈ db.invites, i.token = t)
    (hall : ∀ i ∈ db.invites, i.token = t →
      i.email = userEmail ∧ i.status = "pending") :
    (∃ j ∈ (completeRegistration db userId userEmail userFullName).invites,
      j.token = t)
    ∧ (∀ j ∈ (completeRegistration db userId userEmail userFullName).invites,
        j.token = t → j.status = "accepted")
    ∧ (∀ now2, validate_invite_token
        (completeRegistration db userId userEmail userFullName).invites t now2
        = [⟨false, none⟩])
    ∧ (∀ emailParam fullName phone pw cpw now2,
        registerFlow (completeRegistration db userId userEmail userFullName)
          (some t) emailParam fullName phone pw cpw now2
          = .error .invalidOrExpiredInvite) := by
  have hinv : (completeRegistration db userId userEmail userFullName).invites
      = (db.invites.map (fun i =>
          if i.email == userEmail && i.status == "pending" then
            { i with status := "accepted" } else i)).map (fun i =>
          if i.id == "" then { i with status := "accepted" } else i) := rfl
  have hstat : ∀ j ∈ (completeRegistration db userId userEmail
      userFullName).invites, j.token = t → j.status = "accepted" := by
    intro j hj ht
    rw [hinv] at hj
    simp only [List.mem_map] at hj
    obtain ⟨x, ⟨i, hi, hfi⟩, hgx⟩ := hj
    subst hfi
    subst hgx
    cases h1 : (i.email == userEmail && i.status == "pending") with
    | true =>
      cases h2 : (i.id == "") with
      | true => simp [h1, h2]
      | false => simp [h1, h2]
    | false =>
      cases h2 : (i.id == "") with
      | true => simp [h1, h2]
      | false =>
        simp only [h1, h2, Bool.false_eq_true, if_false] at ht ⊢
        have := hall i hi ht
        rw [this.1, this.2] at h1
        simp at h1
  have hval : ∀ now2, validate_invite_token
      (completeRegistration db userId userEmail userFullName).invites t now2
      = [⟨false, none⟩] := by
    intro now2
    refine validate_invite_token_of_no_match _ t now2 ?_
    intro j hj hmatch
    obtain ⟨ht, hs, _⟩ := (inviteMatches_iff t now2 j).mp hmatch
    have := hstat j hj ht
    rw [this] at hs
    simp at hs
  refine ⟨?_, hstat, hval, ?_⟩
  · obtain ⟨i, hi, hit⟩ := hex
    rw [hinv]
    refine ⟨_, List.mem_map_of_mem _ (List.mem_map_of_mem _ hi), ?_⟩
    cases h1 : (i.email == userEmail && i.status == "pending") with
    | true =>
      cases h2 : (i.id == "") with
      | true => simp [h1, h2, hit]
      | false => simp [h1, h2, hit]
    | false =>
      cases h2 : (i.id == "") with
      | true => simp [h1, h2, hit]
      | false => simp [h1, h2, hit]
  · intro emailParam fullName phone pw cpw now2
    simp [registerFlow, hval now2]

/-- Witness for C3 at a concrete state: after registration the only invite
carrying the token is accepted and revalidation fails. -/
theorem invite_single_use_witness :
    (∃ j ∈ (completeRegistration
        ⟨[], [⟨"i1", "bob@x", "a1", "t1", "pending", 0, 10⟩], [], []⟩
        "u1" "bob@x" "Bob").invites, j.token = "t1")
    ∧ (∀ j ∈ (completeRegistration
        ⟨[], [⟨"i1", "bob@x", "a1", "t1", "pending", 0, 10⟩], [], []⟩
        "u1" "bob@x" "Bob").invites, j.token = "t1" → j.status = "accepted")
    ∧ (∀ now2, validate_invite_token (completeRegistration
        ⟨[], [⟨"i1", "bob@x", "a1", "t1", "pending", 0, 10⟩], [], []⟩
        "u1" "bob@x" "Bob").invites "t1" now2 = [⟨false, none⟩])
    ∧ (∀ emailParam fullName phone pw cpw now2,
        registerFlow (completeRegistration
          ⟨[], [⟨"i1", "bob@x", "a1", "t1", "pending", 0, 10⟩], [], []⟩
          "u1" "bob@x" "Bob") (some "t1") emailParam fullName phone pw cpw
          now2 = .error .invalidOrExpiredInvite) :=
  invite_single_use
    ⟨[], [⟨"i1", "bob@x", "a1", "t1", "pending", 0, 10⟩], [], []⟩
    "t1" "u1" "bob@x" "Bob"
    ⟨⟨"i1", "bob@x", "a1", "t1", "pending", 0, 10⟩, by decide, rfl⟩
    (by decide)

/-- C6: round-trip. For a nonempty target email with no existing account
and no pending invite row, issue persists an invite carrying the fresh
token, status pending and expiry equal to issuance time plus 7 days, and
an immediately following validate of that token yields is_valid true with
the issued email. -/
theorem issue_validate_roundtrip (db : DB)
    (email invitedBy siteUrl freshId freshToken : String) (now : Int)
    (h1 : email ≠ "")
    (h2 : db.accounts.contains email = false)
    (h3 : pendingInvitesFor db.invites email = [])
    (h4 : ∀ i ∈ db.invites, i.token ≠ freshToken) :
    sendInvite db email invitedBy siteUrl freshId freshToken now
      = (.created freshToken ⟨siteUrl, freshToken, email⟩,
         { db with invites := db.invites ++
           [⟨freshId, email, invitedBy, freshToken, "pending", now,
             now + 7 * msPerDay⟩] })
    ∧ validate_invite_token
        (db.invites ++ [⟨freshId, email, invitedBy, freshToken, "pending",
          now, now + 7 * msPerDay⟩]) freshToken now
      = [⟨true, some email⟩] := by
  constructor
  · have he : (email == "") = false := by
      simp [h1]
    unfold sendInvite
    rw [he, h2, h3]
    rfl
  · have hnew : inviteMatches freshToken now
        (⟨freshId, email, invitedBy, freshToken, "pending", now,
          now + 7 * msPerDay⟩ : Invite) = true := by
      simp [inviteMatches, msPerDay]
    have hold : ∀ i ∈ db.invites, ¬ inviteMatches freshToken now i := by
      intro i hi hm
      exact h4 i hi ((inviteMatches_iff freshToken now i).mp hm).1
    have hfil : (db.invites ++ [(⟨freshId, email, invitedBy, freshToken,
        "pending", now, now + 7 * msPerDay⟩ : Invite)]).filter
          (inviteMatches freshToken now)
        = [⟨freshId, email, invitedBy, freshToken, "pending", now,
            now + 7 * msPerDay⟩] := by
      rw [List.filter_append, List.filter_eq_nil_iff.mpr hold]
      simp [hnew]
    simp only [validate_invite_token]
    rw [hfil]
    rfl

/-- Witness for C6 on the empty database. -/
theorem issue_validate_roundtrip_witness :
    sendInvite ⟨[], [], [], []⟩ "bob@x" "a1" "https://s" "i1" "t1" 0
      = (.created "t1" ⟨"https://s", "t1", "bob@x"⟩,
         ⟨[], [⟨"i1", "bob@x", "a1", "t1", "pending", 0, 0 + 7 * msPerDay⟩],
          [], []⟩)
    ∧ validate_invite_token
        [⟨"i1", "bob@x", "a1", "t1", "pending", 0, 0 + 7 * msPerDay⟩]
        "t1" 0 = [⟨true, some "bob@x"⟩] :=
  issue_validate_roundtrip ⟨[], [], [], []⟩ "bob@x" "a1" "https://s"
    "i1" "t1" 0 (by decide) rfl rfl (by decide)

/-- C9: a role change through updateUserRole keeps the grant table
authoritative and refreshes the denormalized profiles.role cache in the
same operation: when the user held at most one grant row, afterwards
every grant row of the user holds the new role, such a row exists, and
every profile row of the user caches user for a user grant and admin for
an admin or tk_master grant. -/
theorem role_update_refreshes_cache (db : DB) (userId : String)
    (newRole : AppRole)
    (h : (db.user_roles.filter (fun r => r.user_id == userId)).length ≤ 1) :
    (∃ r ∈ (updateUserRole db userId newRole).user_roles, r.user_id = userId)
    ∧ (∀ r ∈ (updateUserRole db userId newRole).user_roles,
        r.user_id = userId → r.role = newRole)
    ∧ (∀ p ∈ (updateUserRole db userId newRole).profiles, p.id = userId →
        p.role = if newRole = AppRole.user then UserRole.user
          else UserRole.admin) := by
  have hprof : ∀ p ∈ (updateUserRole db userId newRole).profiles,
      p.id = userId →
      p.role = if newRole = AppRole.user then UserRole.user
        else UserRole.admin := by
    intro p hp hpid
    have hpr : (updateUserRole db userId newRole).profiles
        = db.profiles.map (fun p =>
            if p.id == userId then
              { p with role := if newRole == AppRole.user then UserRole.user
                  else UserRole.admin }
            else p) := by
      unfold updateUserRole
      cases db.user_roles.filter (fun r => r.user_id == userId) with
      | nil => rfl
      | cons a as => cases as <;> rfl
    rw [hpr] at hp
    simp only [List.mem_map] at hp
    obtain ⟨p0, hp0, hfp⟩ := hp
    cases hcond : (p0.id == userId) with
    | true =>
      rw [hcond] at hfp
      simp only [if_true] at hfp
      rw [← hfp]
      cases newRole <;> simp
    | false =>
      rw [hcond] at hfp
      simp only [Bool.false_eq_true, if_false] at hfp
      rw [← hfp] at hpid
      rw [hpid] at hcond
      simp at hcond
  refine ⟨?_, ?_, hprof⟩
  · unfold updateUserRole
    cases hfil : db.user_roles.filter (fun r => r.user_id == userId) with
    | nil =>
      exact ⟨⟨userId, newRole⟩, by simp, rfl⟩
    | cons a as =>
      cases as with
      | nil =>
        have ⟨hain, hacond⟩ := List.mem_filter.mp
          (hfil ▸ List.mem_cons_self a [])
        refine ⟨{ a with role := newRole }, ?_, ?_⟩
        · simp only [List.mem_map]
          exact ⟨a, hain, by simp [hacond]⟩
        · simpa using hacond
      | cons b bs =>
        rw [hfil] at h
        simp at h
  · unfold updateUserRole
    cases hfil : db.user_roles.filter (fun r => r.user_id == userId) with
    | nil =>
      intro r hr hru
      rcases List.mem_append.mp hr with hin | hnew
      · exfalso
        have : r ∈ db.user_roles.filter (fun r => r.user_id == userId) :=
          List.mem_filter.mpr ⟨hin, by simp [hru]⟩
        rw [hfil] at this
        cases this
      · simp only [List.mem_singleton] at hnew
        rw [hnew]
    | cons a as =>
      cases as with
      | nil =>
        intro r hr hru
        simp only [List.mem_map] at hr
        obtain ⟨r0, hr0, hfr⟩ := hr
        cases hcond : (r0.user_id == userId) with
        | true =>
          rw [hcond] at hfr
          simp only [if_true] at hfr
          rw [← hfr]
        | false =>
          rw [hcond] at hfr
          simp only [Bool.false_eq_true, if_false] at hfr
          rw [← hfr] at hru
          rw [hru] at hcond
          simp at hcond
      | cons b bs =>
        rw [hfil] at h
        simp at h

/-- Witness for C9: promoting a user with one grant row to tk_master sets
the grant row to tk_master and the profile cache to admin. -/
theorem role_update_refreshes_cache_witness :
    (∃ r ∈ (updateUserRole
        ⟨[], [], [⟨"u1", AppRole.user⟩], [⟨"u1", "bob@x", "Bob",
          UserRole.user⟩]⟩ "u1" AppRole.tk_master).user_roles,
      r.user_id = "u1")
    ∧ (∀ r ∈ (updateUserRole
        ⟨[], [], [⟨"u1", AppRole.user⟩], [⟨"u1", "bob@x", "Bob",
          UserRole.user⟩]⟩ "u1" AppRole.tk_master).user_roles,
        r.user_id = "u1" → r.role = AppRole.tk_master)
    ∧ (∀ p ∈ (updateUserRole
        ⟨[], [], [⟨"u1", AppRole.user⟩], [⟨"u1", "bob@x", "Bob",
          UserRole.user⟩]⟩ "u1" AppRole.tk_master).profiles,
        p.id = "u1" →
        p.role = if AppRole.tk_master = AppRole.user then UserRole.user
          else UserRole.admin) :=
  role_update_refreshes_cache
    ⟨[], [], [⟨"u1", AppRole.user⟩], [⟨"u1", "bob@x", "Bob",
      UserRole.user⟩]⟩ "u1" AppRole.tk_master (by decide)

/-- C4 counterexample: an email whose only invite is pending but expired
(expires_at 10, now 100). The claim predicts a fresh issue call succeeds;
the code rejects with the duplicate-invite outcome and creates no row,
because the duplicate lookup filters on status pending only. -/
theorem duplicate_check_ignores_expiry_cex :
    sendInvite ⟨[], [⟨"i1", "bob@x", "a1", "t1", "pending", 0, 10⟩], [], []⟩
      "bob@x" "a1" "https://s" "i2" "t2" 100
      = (.duplicateInvite ⟨"https://s", "t1", "bob@x"⟩,
         ⟨[], [⟨"i1", "bob@x", "a1", "t1", "pending", 0, 10⟩], [], []⟩) := by
  decide

/-- C4 (amended): for every email whose only invite is still pending but
already expired, a fresh issue call is rejected with the duplicate-invite
outcome carrying the old link, and no new invite row is created: the
duplicate check matches on status pending alone and ignores expires_at. -/
theorem duplicate_check_ignores_expiry (db : DB)
    (email invitedBy siteUrl freshId freshToken : String) (now : Int)
    (i : Invite)
    (h1 : email ≠ "")
    (h2 : db.accounts.contains email = false)
    (h3 : pendingInvitesFor db.invites email = [i])
    (h4 : i.expires_at ≤ now) :
    sendInvite db email invitedBy siteUrl freshId freshToken now
      = (.duplicateInvite ⟨siteUrl, i.token, email⟩, db) := by
  have he : (email == "") = false := by
    simp [h1]
  unfold sendInvite
  rw [he, h2, h3]
  rfl

/-- Witness for the amended C4 at the concrete expired invite. -/
theorem duplicate_check_ignores_expiry_witness :
    sendInvite ⟨[], [⟨"i1", "ana@x", "a1", "t1", "pending", 0, 10⟩], [], []⟩
      "ana@x" "a1" "https://s" "i2" "t2" 100
      = (.duplicateInvite ⟨"https://s", "t1", "ana@x"⟩,
         ⟨[], [⟨"i1", "ana@x", "a1", "t1", "pending", 0, 10⟩], [], []⟩) :=
  duplicate_check_ignores_expiry
    ⟨[], [⟨"i1", "ana@x", "a1", "t1", "pending", 0, 10⟩], [], []⟩
    "ana@x" "a1" "https://s" "i2" "t2" 100
    ⟨"i1", "ana@x", "a1", "t1", "pending", 0, 10⟩
    (by decide) rfl (by decide) (by decide)

/-- C8 counterexample: with two active pending invites for the email the
claim demands the duplicate-invite rejection, but the .single() read
errors on two rows, so the code inserts a third invite and succeeds. -/
theorem sendInvite_two_pending_cex :
    sendInvite ⟨[], [⟨"i1", "bob@x", "a1", "t1", "pending", 0, 900⟩,
        ⟨"i2", "bob@x", "a1", "t2", "pending", 0, 900⟩], [], []⟩
      "bob@x" "a1" "https://s" "i3" "t3" 100
      = (.created "t3" ⟨"https://s", "t3", "bob@x"⟩,
         ⟨[], [⟨"i1", "bob@x", "a1", "t1", "pending", 0, 900⟩,
           ⟨"i2", "bob@x", "a1", "t2", "pending", 0, 900⟩,
           ⟨"i3", "bob@x", "a1", "t3", "pending", 100,
             100 + 7 * msPerDay⟩], [], []⟩) := by
  decide

/-- C8 (amended): for a nonempty email, issue rejects without inserting in
exactly two situations: the email already has an account (already
registered), or exactly one pending invite row exists for the email,
regardless of expiry (duplicate invite, answering the existing derived
link); with zero — or, against the stated intent, two or more — pending
rows it inserts a fresh invite and succeeds. -/
theorem sendInvite_reject_cases (db : DB)
    (email invitedBy siteUrl freshId freshToken : String) (now : Int)
    (h1 : email ≠ "") :
    (db.accounts.contains email = true →
      sendInvite db email invitedBy siteUrl freshId freshToken now
        = (.alreadyRegistered, db))
    ∧ (∀ i, db.accounts.contains email = false →
        pendingInvitesFor db.invites email = [i] →
        sendInvite db email invitedBy siteUrl freshId freshToken now
          = (.duplicateInvite ⟨siteUrl, i.token, email⟩, db))
    ∧ (db.accounts.contains email = false →
        (pendingInvitesFor db.invites email = [] ∨
          2 ≤ (pendingInvitesFor db.invites email).length) →
        sendInvite db email invitedBy siteUrl freshId freshToken now
          = (.created freshToken ⟨siteUrl, freshToken, email⟩,
             { db with invites := db.invites ++
               [⟨freshId, email, invitedBy, freshToken, "pending", now,
                 now + 7 * msPerDay⟩] })) := by
  have he : (email == "") = false := by
    simp [h1]
  refine ⟨?_, ?_, ?_⟩
  · intro hacc
    unfold sendInvite
    rw [he, hacc]
    rfl
  · intro i hacc hpend
    unfold sendInvite
    rw [he, hacc, hpend]
    rfl
  · intro hacc hcase
    unfold sendInvite
    rw [he, hacc]
    cases hpend : pendingInvitesFor db.invites email with
    | nil => rfl
    | cons a as =>
      cases as with
      | nil =>
        rcases hcase with hnil | hlen
        · rw [hpend] at hnil
          simp at hnil
        · rw [hpend] at hlen
          simp at hlen
      | cons b bs => rfl

/-- Witness for the amended C8: an email with an existing account is
rejected as already registered. -/
theorem sendInvite_reject_cases_witness :
    sendInvite ⟨["ana@x"], [], [], []⟩ "ana@x" "a1" "https://s" "i1" "t1" 0
      = (.alreadyRegistered, ⟨["ana@x"], [], [], []⟩) :=
  (sendInvite_reject_cases ⟨["ana@x"], [], [], []⟩ "ana@x" "a1" "https://s"
    "i1" "t1" 0 (by decide)).1 rfl

/-- C10: in the current Register variant the client-side mark-as-accepted
update filters on the hardcoded empty invite id and so changes no row
(every stored id is nonempty), while the handle_new_user trigger flips
every pending invite whose email matches the new account — whatever its
token — and leaves all other invites untouched. -/
theorem client_accept_noop_trigger_by_email (db : DB)
    (userId userEmail userFullName : String)
    (hid : ∀ i ∈ db.invites, i.id ≠ "") :
    markInviteAccepted db.invites "" = db.invites
    ∧ (∀ i ∈ db.invites, i.email = userEmail → i.status = "pending" →
        { i with status := "accepted" }
          ∈ (handle_new_user db userId userEmail userFullName).invites)
    ∧ (∀ i ∈ db.invites, (i.email ≠ userEmail ∨ i.status ≠ "pending") →
        i ∈ (handle_new_user db userId userEmail userFullName).invites) := by
  refine ⟨?_, ?_, ?_⟩
  · unfold markInviteAccepted
    have hone : ∀ i ∈ db.invites,
        (if i.id == "" then { i with status := "accepted" } else i) = id i := by
      intro i hi
      have : (i.id == "") = false := by
        simp [hid i hi]
      simp [this]
    rw [List.map_congr_left hone, List.map_id]
  · intro i hi hmail hstatus
    unfold handle_new_user
    simp only [List.mem_map]
    exact ⟨i, hi, by simp [hmail, hstatus]⟩
  · intro i hi hmiss
    unfold handle_new_user
    simp only [List.mem_map]
    refine ⟨i, hi, ?_⟩
    rcases hmiss with hmail | hstatus
    · have : (i.email == userEmail) = false := by
        simp [hmail]
      simp [this]
    · have : (i.status == "pending") = false := by
        simp [hstatus]
      simp [this]

/-- Witness for C10 at a concrete state with two pending invites for the
same email under different tokens: the empty-id update is a no-op and the
trigger accepts the invite whose token was never presented. -/
theorem client_accept_noop_trigger_by_email_witness :
    markInviteAccepted [⟨"i1", "bob@x", "a1", "t1", "pending", 0, 900⟩,
        ⟨"i2", "bob@x", "a1", "t2", "pending", 0, 900⟩] ""
      = [⟨"i1", "bob@x", "a1", "t1", "pending", 0, 900⟩,
         ⟨"i2", "bob@x", "a1", "t2", "pending", 0, 900⟩]
    ∧ (⟨"i2", "bob@x", "a1", "t2", "accepted", 0, 900⟩ : Invite)
        ∈ (handle_new_user
          ⟨[], [⟨"i1", "bob@x", "a1", "t1", "pending", 0, 900⟩,
            ⟨"i2", "bob@x", "a1", "t2", "pending", 0, 900⟩], [], []⟩
          "u1" "bob@x" "Bob").invites :=
  ⟨(client_accept_noop_trigger_by_email
      ⟨[], [⟨"i1", "bob@x", "a1", "t1", "pending", 0, 900⟩,
        ⟨"i2", "bob@x", "a1", "t2", "pending", 0, 900⟩], [], []⟩
      "u1" "bob@x" "Bob" (by decide)).1,
   (client_accept_noop_trigger_by_email
      ⟨[], [⟨"i1", "bob@x", "a1", "t1", "pending", 0, 900⟩,
        ⟨"i2", "bob@x", "a1", "t2", "pending", 0, 900⟩], [], []⟩
      "u1" "bob@x" "Bob" (by decide)).2.1
     ⟨"i2", "bob@x", "a1", "t2", "pending", 0, 900⟩ (by decide) rfl rfl⟩

end TkHub
